import Mathlib

/-!
Verification of the archive application's core behaviours: the
distance-to-relevance conversion and result sorting of the Search page,
the cancellation affordances of the Tasks page, and models of the
backend job registry, ingestion pipeline, retrieval engine and chat
orchestrator.  Frontend behaviours are embedded directly from the
TypeScript sources; backend behaviours, whose Python sources are not in
the repository snapshot, are modelled from the specification.
-/

namespace Archive

/-! ## Relevance conversion (frontend/src/pages/Search.tsx) -/

/-- Embedding of JavaScript `Math.round`: nearest integer, halves round
towards positive infinity, i.e. `Math.round(x) = ⌊x + 0.5⌋`. -/
def mathRound (x : ℚ) : ℤ := ⌊x + 1 / 2⌋

/-- `calculateRelevancePercentage` from `frontend/src/pages/Search.tsx`:
`percentage = Math.max(0, Math.min(100, (1 - similarity / 2) * 100))`
followed by `Math.round(percentage)`. -/
def calculateRelevancePercentage (similarity : ℚ) : ℤ :=
  mathRound (max 0 (min 100 ((1 - similarity / 2) * 100)))

/-- Clamp `x` into the interval `[lo, hi]`, as written in the spec's
formula `clamp(0, 100, ·)`. -/
def clamp (lo hi x : ℚ) : ℚ := max lo (min hi x)

/-- The spec's stated formula: `r = round(clamp(0, 100, (1 - d/2) * 100))`. -/
def relevanceSpec (d : ℚ) : ℤ := round (clamp 0 100 ((1 - d / 2) * 100))

theorem mathRound_mono {x y : ℚ} (h : x ≤ y) : mathRound x ≤ mathRound y :=
  Int.floor_mono (by linarith)

theorem clampedRelevance_antitone {d₁ d₂ : ℚ} (h : d₁ ≤ d₂) :
    max 0 (min 100 ((1 - d₂ / 2) * 100)) ≤ max 0 (min 100 ((1 - d₁ / 2) * 100)) :=
  max_le_max le_rfl (min_le_min le_rfl (by linarith))

/-- C2: the relevance conversion computes `round(clamp(0, 100, (1 - d/2) * 100))`;
it is antitone in the raw distance, maps distance 0 to 100, and maps every
distance at least 2 to 0. -/
theorem calculateRelevancePercentage_spec :
    (∀ d : ℚ, calculateRelevancePercentage d = relevanceSpec d) ∧
    (∀ d₁ d₂ : ℚ, d₁ < d₂ →
      calculateRelevancePercentage d₂ ≤ calculateRelevancePercentage d₁) ∧
    calculateRelevancePercentage 0 = 100 ∧
    (∀ d : ℚ, 2 ≤ d → calculateRelevancePercentage d = 0) := by
  refine ⟨fun d => ?_, fun d₁ d₂ h => ?_, ?_, fun d hd => ?_⟩
  · rw [calculateRelevancePercentage, relevanceSpec, clamp, round_eq, mathRound]
  · exact mathRound_mono (clampedRelevance_antitone h.le)
  · show mathRound (max 0 (min 100 ((1 - 0 / 2) * 100))) = 100
    norm_num [mathRound]
  · have h1 : (1 - d / 2) * 100 ≤ 0 := by linarith
    have h2 : max 0 (min 100 ((1 - d / 2) * 100)) = 0 :=
      max_eq_left (le_trans (min_le_right _ _) h1)
    rw [calculateRelevancePercentage, h2]
    norm_num [mathRound]

/-- Witness for C2 at concrete distances 1 < 2 and 3 ≥ 2. -/
theorem calculateRelevancePercentage_spec_witness :
    calculateRelevancePercentage 2 ≤ calculateRelevancePercentage 1 ∧
    calculateRelevancePercentage 3 = 0 :=
  ⟨calculateRelevancePercentage_spec.2.1 1 2 (by norm_num),
   calculateRelevancePercentage_spec.2.2.2 3 (by norm_num)⟩

/-- C10: the relevance conversion is a total function whose result always
lies in `[0, 100]`, and every non-positive distance (including negative
distances outside the documented range) yields exactly 100. -/
theorem calculateRelevancePercentage_total_bounded :
    (∀ d : ℚ, 0 ≤ calculateRelevancePercentage d ∧
      calculateRelevancePercentage d ≤ 100) ∧
    (∀ d : ℚ, d ≤ 0 → calculateRelevancePercentage d = 100) := by
  constructor
  · intro d
    constructor
    · have h0 : (0 : ℤ) = mathRound 0 := by norm_num [mathRound]
      rw [h0]
      exact mathRound_mono (le_max_left _ _)
    · have h100 : (100 : ℤ) = mathRound 100 := by norm_num [mathRound]
      rw [h100]
      exact mathRound_mono
        (max_le (by norm_num) (min_le_left _ _))
  · intro d hd
    have h1 : (100 : ℚ) ≤ (1 - d / 2) * 100 := by linarith
    have h2 : max 0 (min 100 ((1 - d / 2) * 100)) = 100 := by
      rw [min_eq_left h1]
      norm_num
    rw [calculateRelevancePercentage, h2]
    norm_num [mathRound]

/-- Witness for C10 at the concrete negative distance -1. -/
theorem calculateRelevancePercentage_total_bounded_witness :
    calculateRelevancePercentage (-1) = 100 :=
  calculateRelevancePercentage_total_bounded.2 (-1) (by norm_num)

/-! ## Vector-result sorting (frontend/src/pages/Search.tsx, handleSearch) -/

/-- A search-result page as the Search page sees it: `PageWithSimilarity`
extends `Page` with an optional `similarity` raw distance. Only the fields
the sort reads are carried. -/
structure PageWithSimilarity where
  id : String
  sourceId : String
  extractedText : String
  similarity : Option ℚ
deriving DecidableEq

/-- The comparator key of `handleSearch`'s sort:
`(a as PageWithSimilarity).similarity || 0` — an absent (`undefined`)
similarity is replaced by `0`. -/
def similarityKey (p : PageWithSimilarity) : ℚ := p.similarity.getD 0

/-- The sort `response.data.pages.sort((a, b) => aSimilarity - bSimilarity)`:
ascending order of `similarityKey` (lower distance first). -/
def sortPagesBySimilarity (l : List PageWithSimilarity) : List PageWithSimilarity :=
  List.insertionSort (fun a b => similarityKey a ≤ similarityKey b) l

instance : IsTotal PageWithSimilarity (fun a b => similarityKey a ≤ similarityKey b) :=
  ⟨fun _ _ => le_total _ _⟩

instance : IsTrans PageWithSimilarity (fun a b => similarityKey a ≤ similarityKey b) :=
  ⟨fun _ _ _ hab hbc => le_trans hab hbc⟩

/-- C8: in the vector-mode sort, a page with `undefined` similarity is
compared with key 0, and therefore appears strictly before every page
whose raw distance is positive. -/
theorem sortPages_undefined_similarity_first
    (l : List PageWithSimilarity) (i j : Fin (sortPagesBySimilarity l).length)
    (ha : ((sortPagesBySimilarity l).get i).similarity = none)
    (d : ℚ) (hd : 0 < d)
    (hb : ((sortPagesBySimilarity l).get j).similarity = some d) :
    similarityKey ((sortPagesBySimilarity l).get i) = 0 ∧ (i : ℕ) < (j : ℕ) := by
  have hkey : similarityKey ((sortPagesBySimilarity l).get i) = 0 := by
    unfold similarityKey
    rw [ha]
    rfl
  refine ⟨hkey, ?_⟩
  have hsorted : (sortPagesBySimilarity l).Sorted
      (fun a b => similarityKey a ≤ similarityKey b) :=
    List.sorted_insertionSort _ l
  rcases lt_trichotomy (i : ℕ) (j : ℕ) with h | h | h
  · exact h
  · exfalso
    have : i = j := Fin.ext h
    rw [this, hb] at ha
    exact Option.noConfusion ha
  · exfalso
    have hle := hsorted.rel_get_of_lt (show j < i from h)
    rw [hkey] at hle
    have : similarityKey ((sortPagesBySimilarity l).get j) = d := by
      unfold similarityKey
      rw [hb]
      rfl
    rw [this] at hle
    exact absurd hle (not_le.mpr hd)

/-- Two concrete result pages: one scored at distance 1, one unscored. -/
def demoScoredPage : PageWithSimilarity :=
  { id := "p1", sourceId := "s1", extractedText := "alpha", similarity := some 1 }

def demoUnscoredPage : PageWithSimilarity :=
  { id := "p2", sourceId := "s1", extractedText := "beta", similarity := none }

/-- Witness for C8 on a concrete two-page result list. -/
theorem sortPages_undefined_similarity_first_witness :
    similarityKey ((sortPagesBySimilarity [demoScoredPage, demoUnscoredPage]).get
        ⟨0, by decide⟩) = 0 ∧
      ((⟨0, by decide⟩ : Fin (sortPagesBySimilarity
        [demoScoredPage, demoUnscoredPage]).length) : ℕ) <
      ((⟨1, by decide⟩ : Fin (sortPagesBySimilarity
        [demoScoredPage, demoUnscoredPage]).length) : ℕ) :=
  sortPages_undefined_similarity_first [demoScoredPage, demoUnscoredPage]
    ⟨0, by decide⟩ ⟨1, by decide⟩ (by decide) 1 (by norm_num) (by decide)

/-! ## Tasks page cancellation affordances (frontend/src/pages/Tasks.tsx) -/

/-- The task status union from `frontend/src/types/index.ts`:
`"pending" | "in_progress" | "completed" | "failed" | "cancelled"`. -/
inductive TaskStatus
  | pending
  | in_progress
  | completed
  | failed
  | cancelled
deriving DecidableEq

/-- `BackgroundTask` from `frontend/src/types/index.ts`. -/
structure BackgroundTask where
  id : String
  taskType : String
  status : TaskStatus
  sourceId : Option String
  pageId : Option String
  scheduledAt : String
  canCancel : Bool
deriving DecidableEq

/-- `handleSelectAll` (checked branch): ids of tasks with
`task.canCancel && task.status === "pending"`. -/
def selectAllTargets (tasks : List BackgroundTask) : List String :=
  (tasks.filter (fun t => t.canCancel && t.status == .pending)).map (·.id)

/-- Per-row checkbox `disabled` condition:
`!task.canCancel || task.status !== "pending"`. -/
def rowCheckboxDisabled (t : BackgroundTask) : Bool :=
  !t.canCancel || t.status != .pending

/-- Per-row cancel button visibility:
`task.canCancel && task.status === "pending"`. -/
def rowCancelShown (t : BackgroundTask) : Bool :=
  t.canCancel && t.status == .pending

/-- `cancellablePendingCount`: the count enabling the Cancel All button. -/
def cancellablePendingCount (tasks : List BackgroundTask) : ℕ :=
  (tasks.filter (fun t => t.canCancel && t.status == .pending)).length

/-- C9: every cancellation affordance on the Tasks page — select-all
targets, enabled per-row checkboxes, the visible per-row cancel button,
and the Cancel All count — is restricted to tasks with `canCancel` true
and status exactly `pending`; a task with status `in_progress` is never
offered. -/
theorem tasks_cancel_affordances_pending_only :
    (∀ (ts : List BackgroundTask) (tid : String), tid ∈ selectAllTargets ts →
      ∃ t, t ∈ ts ∧ t.id = tid ∧ t.canCancel = true ∧ t.status = .pending) ∧
    (∀ t : BackgroundTask, rowCheckboxDisabled t = false →
      t.canCancel = true ∧ t.status = .pending) ∧
    (∀ t : BackgroundTask, rowCancelShown t = true →
      t.canCancel = true ∧ t.status = .pending) ∧
    (∀ ts : List BackgroundTask, cancellablePendingCount ts =
      (ts.filter (fun t => t.canCancel && t.status == .pending)).length) ∧
    (∀ t : BackgroundTask, t.status = .in_progress →
      rowCancelShown t = false ∧ rowCheckboxDisabled t = true) := by
  refine ⟨fun ts tid h => ?_, fun t h => ?_, fun t h => ?_, fun ts => rfl,
    fun t h => ?_⟩
  · rw [selectAllTargets, List.mem_map] at h
    obtain ⟨t, ht, hid⟩ := h
    rw [List.mem_filter] at ht
    have hp := ht.2
    simp only [Bool.and_eq_true, beq_iff_eq] at hp
    exact ⟨t, ht.1, hid, hp.1, hp.2⟩
  · rw [rowCheckboxDisabled] at h
    simp only [Bool.or_eq_false_iff, Bool.not_eq_false',
      bne_eq_false_iff_eq] at h
    exact h
  · rw [rowCancelShown] at h
    simp only [Bool.and_eq_true, beq_iff_eq] at h
    exact h
  · rw [rowCancelShown, rowCheckboxDisabled, h]
    simp

/-- A concrete cancellable pending task. -/
def demoPendingTask : BackgroundTask :=
  { id := "t1", taskType := "text_extraction", status := .pending,
    sourceId := some "s1", pageId := some "p1",
    scheduledAt := "2025-03-09T12:00:00Z", canCancel := true }

/-- Witness for C9 on a concrete pending task and a concrete task list. -/
theorem tasks_cancel_affordances_pending_only_witness :
    (demoPendingTask.canCancel = true ∧ demoPendingTask.status = .pending) ∧
    ∃ t, t ∈ [demoPendingTask] ∧ t.id = "t1" ∧ t.canCancel = true ∧
      t.status = TaskStatus.pending :=
  ⟨tasks_cancel_affordances_pending_only.2.2.1 demoPendingTask (by decide),
   tasks_cancel_affordances_pending_only.1 [demoPendingTask] "t1" (by decide)⟩

/-! ## Job registry and ingestion pipeline (modelled from the spec) -/

/-- Modelled from the spec: `cancellable` is true only while
status ∈ \x7bpending, in_progress\x7d (§3 invariant; the backend job
registry `backend/v1/tasks.py` is not in the repository snapshot). -/
def cancellable (s : TaskStatus) : Bool :=
  s == .pending || s == .in_progress

/-- Modelled from the spec: a Job record of §3 (backend `BackgroundTask`
model of `backend/v1/models.py` is not in the repository snapshot). -/
structure Job where
  id : String
  kind : String
  sourceId : Option String
  pageId : Option String
  status : TaskStatus
deriving DecidableEq

/-- Forward position of a status in the lifecycle
pending → in_progress → \x7bcompleted, failed, cancelled\x7d. -/
def rank : TaskStatus → ℕ
  | .pending => 0
  | .in_progress => 1
  | .completed => 2
  | .failed => 2
  | .cancelled => 2

/-- Modelled from the spec: the environment one ingestion run observes —
the outcome of each external call and each existence / cancellation
check of §4.2 (backend `backend/v1/text_extraction.py` is not in the
repository snapshot). -/
structure PipelineEnv where
  pageExistsAtStart : Bool
  ocrResult : Option String
  cancelRequestedAfterOcr : Bool
  embedResult : Option (List ℚ)
  cancelRequestedAfterEmbed : Bool
  pageExistsAtPersist : Bool
deriving DecidableEq

/-- The single update a successful run persists onto the Page (§4.2 step 7). -/
structure PageWrite where
  extractedText : String
  embedding : Option (List ℚ)
deriving DecidableEq

/-- The observable outcome of one ingestion run: the job statuses assigned
in order (starting from `pending` at registration) and the Page update
written, if any. -/
structure PipelineRun where
  statusTrace : List TaskStatus
  write : Option PageWrite
deriving DecidableEq

/-- The Embedding Service's maximum input length (§4.2 step 4, ~8192 units). -/
def maxEmbeddingInput : ℕ := 8192

/-- Modelled from the spec: the ingestion pipeline of §4.2 for one Page —
existence check, OCR, truncation, embedding, cooperative cancellation
checks at step boundaries, re-check of existence, then the single persist. -/
def runPipeline (env : PipelineEnv) : PipelineRun :=
  if !env.pageExistsAtStart then
    { statusTrace := [.pending, .failed], write := none }
  else
    match env.ocrResult with
    | none => { statusTrace := [.pending, .in_progress, .failed], write := none }
    | some text =>
      if env.cancelRequestedAfterOcr then
        { statusTrace := [.pending, .in_progress, .cancelled], write := none }
      else
        let truncated := text.take maxEmbeddingInput
        if truncated.isEmpty then
          if !env.pageExistsAtPersist then
            { statusTrace := [.pending, .in_progress, .failed], write := none }
          else
            { statusTrace := [.pending, .in_progress, .completed],
              write := some { extractedText := truncated, embedding := none } }
        else
          match env.embedResult with
          | none => { statusTrace := [.pending, .in_progress, .failed], write := none }
          | some vec =>
            if env.cancelRequestedAfterEmbed then
              { statusTrace := [.pending, .in_progress, .cancelled], write := none }
            else if !env.pageExistsAtPersist then
              { statusTrace := [.pending, .in_progress, .failed], write := none }
            else
              { statusTrace := [.pending, .in_progress, .completed],
                write := some { extractedText := truncated, embedding := some vec } }

/-- The status a run leaves the job in: the last entry of its trace. -/
def finalStatus (r : PipelineRun) : TaskStatus :=
  r.statusTrace.getLastD .pending

/-- C3: if the Page is already gone at the initial existence check (it was
deleted while the Job was still pending) the run ends `failed` with no
write; and whenever the pre-persist re-check finds the Page gone, nothing
is written and the run never ends `completed`. -/
theorem pipeline_deleted_page_fails (env : PipelineEnv) :
    (env.pageExistsAtStart = false →
      runPipeline env = { statusTrace := [.pending, .failed], write := none }) ∧
    (env.pageExistsAtPersist = false →
      (runPipeline env).write = none ∧
      finalStatus (runPipeline env) ≠ .completed) := by
  obtain ⟨e1, ocr, c1, emb, c2, e6⟩ := env
  constructor
  · rintro rfl
    rfl
  · rintro rfl
    cases e1 <;> cases ocr <;> cases c1 <;> cases emb <;> cases c2 <;>
      simp only [runPipeline, finalStatus, Bool.not_false, Bool.not_true,
        if_true, if_false] <;>
      first
        | decide
        | (split_ifs <;> decide)

/-- An environment whose Page was deleted before the pipeline started. -/
def demoDeletedEnv : PipelineEnv :=
  { pageExistsAtStart := false, ocrResult := some "text",
    cancelRequestedAfterOcr := false, embedResult := some [1],
    cancelRequestedAfterEmbed := false, pageExistsAtPersist := false }

/-- Witness for C3: a run whose Page was deleted before the pipeline
started fails without writing. -/
theorem pipeline_deleted_page_fails_witness :
    runPipeline demoDeletedEnv =
      { statusTrace := [.pending, .failed], write := none } :=
  (pipeline_deleted_page_fails demoDeletedEnv).1 rfl

/-- C4: every status trace an ingestion run produces is strictly forward in
the order pending → in_progress → terminal; cancelling a cancellable job
also only moves forward; and every status is one of the five values. -/
theorem job_status_monotone :
    (∀ env : PipelineEnv, (runPipeline env).statusTrace.Pairwise
      (fun a b => rank a < rank b)) ∧
    (∀ s : TaskStatus, cancellable s = true → rank s < rank .cancelled) ∧
    (∀ s : TaskStatus, s = .pending ∨ s = .in_progress ∨ s = .completed ∨
      s = .failed ∨ s = .cancelled) := by
  refine ⟨fun env => ?_, fun s => ?_, fun s => ?_⟩
  · obtain ⟨e1, ocr, c1, emb, c2, e6⟩ := env
    have hpf : List.Pairwise (fun a b => rank a < rank b)
        [TaskStatus.pending, TaskStatus.failed] := by decide
    have hpif : List.Pairwise (fun a b => rank a < rank b)
        [TaskStatus.pending, TaskStatus.in_progress, TaskStatus.failed] := by
      decide
    have hpic : List.Pairwise (fun a b => rank a < rank b)
        [TaskStatus.pending, TaskStatus.in_progress, TaskStatus.cancelled] := by
      decide
    have hpok : List.Pairwise (fun a b => rank a < rank b)
        [TaskStatus.pending, TaskStatus.in_progress, TaskStatus.completed] := by
      decide
    cases e1 <;> cases ocr <;> cases c1 <;> cases emb <;> cases c2 <;>
      cases e6 <;>
      simp only [runPipeline, Bool.not_false, Bool.not_true,
        if_true, if_false] <;>
      first
        | (split_ifs <;>
            first
              | exact hpf
              | exact hpif
              | exact hpic
              | exact hpok)
        | exact hpf
        | exact hpif
        | exact hpic
        | exact hpok
  · cases s <;> decide
  · cases s <;> simp

/-- Witness for C4: a pending job moves forward when cancelled. -/
theorem job_status_monotone_witness :
    rank .pending < rank .cancelled :=
  job_status_monotone.2.1 .pending (by decide)

/-- Look a job up by id in the registry, as `get(jobId)` of §4.1. -/
def findJob (jobs : List Job) (jid : String) : Option Job :=
  jobs.find? (fun j => j.id == jid)

/-- Modelled from the spec: `cancel(jobId) -> bool` of §4.1 (backend
`DELETE /tasks/\x7btask_id\x7d` handler is not in the repository
snapshot) — returns false if the job is missing or not cancellable,
otherwise marks it `cancelled` and returns true. -/
def cancelJob (jobs : List Job) (jid : String) : Bool × List Job :=
  match findJob jobs jid with
  | none => (false, jobs)
  | some j =>
    if cancellable j.status then
      (true, jobs.map (fun k =>
        if k.id == jid then { k with status := .cancelled } else k))
    else
      (false, jobs)

theorem cancelJob_eq_of_found {jobs : List Job} {jid : String} {j : Job}
    (hf : findJob jobs jid = some j) :
    cancelJob jobs jid =
      if cancellable j.status then
        (true, jobs.map (fun k =>
          if k.id == jid then { k with status := TaskStatus.cancelled } else k))
      else
        (false, jobs) := by
  rw [cancelJob, hf]

theorem findJob_map_cancelled {jobs : List Job} {jid : String} {j : Job}
    (h : findJob jobs jid = some j) :
    findJob (jobs.map (fun k =>
        if k.id == jid then { k with status := TaskStatus.cancelled } else k)) jid
      = some { j with status := TaskStatus.cancelled } := by
  induction jobs with
  | nil => exact absurd h (by simp [findJob])
  | cons a tl ih =>
    by_cases ha : a.id = jid
    · have hfind : findJob (a :: tl) jid = some a := by
        rw [findJob]
        exact List.find?_cons_of_pos _ (by simp [ha])
      rw [hfind] at h
      obtain rfl : a = j := by injection h
      rw [List.map_cons, if_pos (by simp [ha]), findJob]
      exact List.find?_cons_of_pos _ (by simp [ha])
    · have hfind : findJob (a :: tl) jid = findJob tl jid := by
        rw [findJob, findJob]
        exact List.find?_cons_of_neg _ (by simp [ha])
      rw [hfind] at h
      rw [List.map_cons, if_neg (by simp [ha]), findJob]
      rw [List.find?_cons_of_neg _ (by simp [ha])]
      exact ih h

/-- C5: cancelling a non-cancellable job (in particular a completed one)
returns false and leaves the registry unchanged; cancelling a cancellable
job returns true and that job's status becomes `cancelled`. -/
theorem cancelJob_spec :
    (∀ (jobs : List Job) (jid : String) (j : Job), findJob jobs jid = some j →
      cancellable j.status = false → cancelJob jobs jid = (false, jobs)) ∧
    (∀ (jobs : List Job) (jid : String) (j : Job), findJob jobs jid = some j →
      j.status = .completed → cancelJob jobs jid = (false, jobs)) ∧
    (∀ (jobs : List Job) (jid : String) (j : Job), findJob jobs jid = some j →
      cancellable j.status = true →
      (cancelJob jobs jid).1 = true ∧
      findJob (cancelJob jobs jid).2 jid =
        some { j with status := .cancelled }) := by
  refine ⟨fun jobs jid j hf hc => ?_, fun jobs jid j hf hs => ?_,
    fun jobs jid j hf hc => ?_⟩
  · rw [cancelJob_eq_of_found hf, if_neg (by simp [hc])]
  · rw [cancelJob_eq_of_found hf, if_neg (by rw [hs]; simp [cancellable])]
  · rw [cancelJob_eq_of_found hf, if_pos hc]
    exact ⟨rfl, findJob_map_cancelled hf⟩

/-- A completed job and a pending job for the C5 witness. -/
def demoCompletedJob : Job :=
  { id := "j1", kind := "text_extraction", sourceId := some "s1",
    pageId := some "p1", status := .completed }

def demoPendingJob : Job :=
  { id := "j2", kind := "text_extraction", sourceId := some "s1",
    pageId := some "p2", status := .pending }

/-- Witness for C5: cancelling the completed job is a refused no-op;
cancelling the pending job succeeds and marks it cancelled. -/
theorem cancelJob_spec_witness :
    cancelJob [demoCompletedJob] "j1" = (false, [demoCompletedJob]) ∧
    (cancelJob [demoPendingJob] "j2").1 = true ∧
    findJob (cancelJob [demoPendingJob] "j2").2 "j2" =
      some { demoPendingJob with status := .cancelled } :=
  ⟨cancelJob_spec.2.1 [demoCompletedJob] "j1" demoCompletedJob (by decide) rfl,
   cancelJob_spec.2.2 [demoPendingJob] "j2" demoPendingJob (by decide) (by decide)⟩

/-! ## Retrieval engine (modelled from the spec) -/

/-- A stored Page as the retrieval queries see it (`Page` of
`frontend/src/types/index.ts` with the optional `contentVector`). -/
structure StoredPage where
  id : String
  sourceId : String
  extractedText : String
  title : Option String
  notes : Option String
  contentVector : Option (List ℚ)
deriving DecidableEq

/-- A stored Source: `name` and optional `description` are the searched
fields. -/
structure SourceRec where
  id : String
  name : String
  description : Option String
deriving DecidableEq

/-- Modelled from the spec (§4.3 vector mode, and the logged Cosmos filter
`ARRAY_LENGTH(c.contentVector) > 0`; the backend `backend/v1/search.py`
is not in the repository snapshot): the candidate set of a vector query —
pages inside the optional source scope whose embedding is present and
non-empty. -/
def vectorCandidates (sourceIds : Option (List String))
    (pages : List StoredPage) : List StoredPage :=
  pages.filter (fun p =>
    (match sourceIds with
      | none => true
      | some ids => ids.contains p.sourceId) &&
    (match p.contentVector with
      | none => false
      | some v => decide (0 < v.length)))

/-- Modelled from the spec: vector search orders the candidates by
ascending raw distance to the query vector and returns the first `limit`.
The distance function is a parameter (cosine distance in the deployment). -/
def vectorSearch (dist : List ℚ → List ℚ → ℚ) (queryVec : List ℚ)
    (limit : ℕ) (sourceIds : Option (List String))
    (pages : List StoredPage) : List StoredPage :=
  (List.insertionSort
    (fun a b => dist queryVec (a.contentVector.getD []) ≤
      dist queryVec (b.contentVector.getD []))
    (vectorCandidates sourceIds pages)).take limit

/-- C1: a page returned by vector search always carries a present,
non-empty embedding; a page with an absent or empty embedding is not even
a candidate, for any query, limit and scope. -/
theorem vectorSearch_excludes_unembedded :
    (∀ (dist : List ℚ → List ℚ → ℚ) (queryVec : List ℚ) (limit : ℕ)
      (sourceIds : Option (List String)) (pages : List StoredPage)
      (p : StoredPage), p ∈ vectorSearch dist queryVec limit sourceIds pages →
      ∃ v, p.contentVector = some v ∧ v ≠ []) ∧
    (∀ (sourceIds : Option (List String)) (pages : List StoredPage)
      (p : StoredPage), p.contentVector = none ∨ p.contentVector = some [] →
      p ∉ vectorCandidates sourceIds pages) := by
  have hcand : ∀ (sourceIds : Option (List String)) (pages : List StoredPage)
      (p : StoredPage), p ∈ vectorCandidates sourceIds pages →
      ∃ v, p.contentVector = some v ∧ v ≠ [] := by
    intro sourceIds pages p hp
    rw [vectorCandidates, List.mem_filter] at hp
    have hb := hp.2
    rw [Bool.and_eq_true] at hb
    rcases hv : p.contentVector with _ | v
    · rw [hv] at hb
      exact absurd hb.2 (by simp)
    · refine ⟨v, rfl, ?_⟩
      rw [hv] at hb
      have hlen : 0 < v.length := of_decide_eq_true hb.2
      intro hnil
      rw [hnil] at hlen
      exact absurd hlen (by simp)
  constructor
  · intro dist queryVec limit sourceIds pages p hp
    rw [vectorSearch] at hp
    have hsorted := List.mem_of_mem_take hp
    have hperm := List.perm_insertionSort
      (fun a b => dist queryVec (a.contentVector.getD []) ≤
        dist queryVec (b.contentVector.getD []))
      (vectorCandidates sourceIds pages)
    exact hcand sourceIds pages p (hperm.mem_iff.mp hsorted)
  · intro sourceIds pages p hvec hp
    obtain ⟨v, hv, hne⟩ := hcand sourceIds pages p hp
    rcases hvec with h | h
    · rw [h] at hv
      exact Option.noConfusion hv
    · rw [h] at hv
      exact hne (Option.some.inj hv).symm

/-- A page with an embedding and one without, for the C1 witness. -/
def demoEmbeddedPage : StoredPage :=
  { id := "p1", sourceId := "s1", extractedText := "alpha beta gamma",
    title := some "Demo", notes := none, contentVector := some [1, 0] }

def demoUnembeddedPage : StoredPage :=
  { id := "p2", sourceId := "s1", extractedText := "delta",
    title := none, notes := none, contentVector := none }

/-- Witness for C1: on a concrete store the embedded page is returned and
has a non-empty embedding; the unembedded page is not a candidate. -/
theorem vectorSearch_excludes_unembedded_witness :
    (∃ v, demoEmbeddedPage.contentVector = some v ∧ v ≠ []) ∧
    demoUnembeddedPage ∉ vectorCandidates none
      [demoEmbeddedPage, demoUnembeddedPage] :=
  ⟨vectorSearch_excludes_unembedded.1 (fun _ _ => 0) [1, 0] 1 none
      [demoEmbeddedPage, demoUnembeddedPage] demoEmbeddedPage (by decide),
   vectorSearch_excludes_unembedded.2 none
      [demoEmbeddedPage, demoUnembeddedPage] demoUnembeddedPage
      (Or.inl rfl)⟩

/-! ## Keyword search (modelled from the spec and the logged queries) -/

/-- Lower-cased character sequence of a string, the embedding of the
Cosmos `LOWER()` call. -/
def lowerChars (s : String) : List Char := s.data.map Char.toLower

/-- Modelled from the spec: the logged page query
`CONTAINS(LOWER(c.extractedText), LOWER(@query)) OR
CONTAINS(LOWER(c.notes), LOWER(@query)) OR
CONTAINS(LOWER(c.title), LOWER(@query))` (the backend
`backend/v1/search.py` is not in the repository snapshot). -/
def pageKeywordMatch (q : String) (p : StoredPage) : Bool :=
  decide (lowerChars q <:+: lowerChars p.extractedText) ||
  (match p.notes with
    | some n => decide (lowerChars q <:+: lowerChars n)
    | none => false) ||
  (match p.title with
    | some t => decide (lowerChars q <:+: lowerChars t)
    | none => false)

/-- Modelled from the spec: the logged source query
`CONTAINS(LOWER(c.name), LOWER(@query)) OR
CONTAINS(LOWER(c.description), LOWER(@query))`. -/
def sourceKeywordMatch (q : String) (s : SourceRec) : Bool :=
  decide (lowerChars q <:+: lowerChars s.name) ||
  (match s.description with
    | some d => decide (lowerChars q <:+: lowerChars d)
    | none => false)

/-- Modelled from the spec: keyword mode returns the matching pages, with
`limit` bounding the page result count. -/
def keywordSearchPages (q : String) (limit : ℕ)
    (pages : List StoredPage) : List StoredPage :=
  (pages.filter (pageKeywordMatch q)).take limit

/-- Modelled from the spec: keyword mode returns the matching sources. -/
def keywordSearchSources (q : String) (sources : List SourceRec) :
    List SourceRec :=
  sources.filter (sourceKeywordMatch q)

/-- C6: every page returned by keyword search has the lower-cased query as
a substring of its lower-cased text, notes or title; when the matches fit
within `limit`, a stored page is returned exactly when it matches; and a
stored source is returned exactly when its name or description matches. -/
theorem keywordSearch_case_insensitive_substring :
    (∀ (q : String) (limit : ℕ) (pages : List StoredPage) (p : StoredPage),
      p ∈ keywordSearchPages q limit pages →
      (lowerChars q <:+: lowerChars p.extractedText ∨
       (∃ n, p.notes = some n ∧ lowerChars q <:+: lowerChars n) ∨
       (∃ t, p.title = some t ∧ lowerChars q <:+: lowerChars t))) ∧
    (∀ (q : String) (limit : ℕ) (pages : List StoredPage) (p : StoredPage),
      p ∈ pages → (pages.filter (pageKeywordMatch q)).length ≤ limit →
      (p ∈ keywordSearchPages q limit pages ↔ pageKeywordMatch q p = true)) ∧
    (∀ (q : String) (sources : List SourceRec) (s : SourceRec),
      s ∈ keywordSearchSources q sources ↔
        s ∈ sources ∧ sourceKeywordMatch q s = true) := by
  refine ⟨fun q limit pages p hp => ?_, fun q limit pages p hp hlen => ?_,
    fun q sources s => ?_⟩
  · rw [keywordSearchPages] at hp
    have hmem := List.mem_of_mem_take hp
    rw [List.mem_filter] at hmem
    have hb := hmem.2
    rw [pageKeywordMatch, Bool.or_eq_true, Bool.or_eq_true] at hb
    rcases hb with (h | h) | h
    · exact Or.inl (of_decide_eq_true h)
    · rcases hn : p.notes with _ | n
      · rw [hn] at h
        exact absurd h (by simp)
      · rw [hn] at h
        exact Or.inr (Or.inl ⟨n, rfl, of_decide_eq_true h⟩)
    · rcases ht : p.title with _ | t
      · rw [ht] at h
        exact absurd h (by simp)
      · rw [ht] at h
        exact Or.inr (Or.inr ⟨t, rfl, of_decide_eq_true h⟩)
  · rw [keywordSearchPages, List.take_of_length_le hlen, List.mem_filter]
    exact ⟨fun h => h.2, fun h => ⟨hp, h⟩⟩
  · rw [keywordSearchSources, List.mem_filter]

/-- A page whose stored text contains a lower-case "beta", for the C6
uppercase-query witness. -/
def demoBetaPage : StoredPage :=
  { id := "p1", sourceId := "s1", extractedText := "alpha beta gamma",
    title := none, notes := none, contentVector := none }

/-- Witness for C6: the uppercase query "BETA" returns the page storing
"alpha beta gamma". -/
theorem keywordSearch_case_insensitive_substring_witness :
    demoBetaPage ∈ keywordSearchPages "BETA" 10 [demoBetaPage] :=
  (keywordSearch_case_insensitive_substring.2.1 "BETA" 10 [demoBetaPage]
      demoBetaPage (by decide) (by decide)).mpr (by decide)

/-! ## Chat orchestrator (modelled from the spec) -/

/-- Token-usage counters of the Language Model Service
(`UsageInfo` of `frontend/src/types/index.ts`). -/
structure UsageInfo where
  prompt_tokens : ℕ
  completion_tokens : ℕ
  total_tokens : ℕ
deriving DecidableEq

/-- A Language Model Service response: generated text plus usage. -/
structure LMResult where
  text : String
  usage : UsageInfo
deriving DecidableEq

/-- A retrieved snippet handed to the orchestrator: the page, its source's
name, and the raw retrieval distance. -/
structure RetrievedSnippet where
  page : StoredPage
  sourceName : String
  distance : ℚ
deriving DecidableEq

/-- Modelled from the spec: the bounded excerpt length of §4.4 step 2. -/
def snippetLength : ℕ := 500

/-- A citation (`Citation` of `frontend/src/types/index.ts`). -/
structure CitationRec where
  source_id : String
  source_name : String
  page_id : String
  page_title : Option String
  text_snippet : String
  similarity : ℚ
deriving DecidableEq

/-- Build a citation from a retrieved snippet, carrying the relevance
through unchanged (§4.4 step 4). -/
def toCitation (r : RetrievedSnippet) : CitationRec :=
  { source_id := r.page.sourceId, source_name := r.sourceName,
    page_id := r.page.id, page_title := r.page.title,
    text_snippet := r.page.extractedText.take snippetLength,
    similarity := r.distance }

/-- Modelled from the spec: the grounding context of §4.4 step 2 — each
retrieved page's bounded excerpt with citing metadata, concatenated. -/
def buildContext (retrieved : List RetrievedSnippet) : String :=
  String.join (retrieved.map (fun r =>
    r.sourceName ++ " - " ++ (r.page.title.getD "") ++ ": " ++
      r.page.extractedText.take snippetLength ++ "\n"))

/-- Modelled from the spec: the prompt pairing grounding context with the
user's message (§4.4 step 3). -/
def buildPrompt (context message : String) : String :=
  context ++ "\nUser: " ++ message

/-- An assistant chat message (`ChatMessage` of
`frontend/src/types/index.ts`, with usage). -/
structure ChatMessageOut where
  role : String
  content : String
  citations : List CitationRec
  usage : UsageInfo
deriving DecidableEq

/-- Modelled from the spec: the orchestrator given the retrieval outcome —
a retrieval failure aborts before the Language Model Service is invoked;
otherwise the model is invoked on the built prompt and the citations come
from exactly the retrieved snippets (§4.4, backend `backend/v1/chat.py`
is not in the repository snapshot). -/
def chatOrchestrate (llm : String → LMResult)
    (retrievalResult : Except String (List RetrievedSnippet))
    (message : String) : Except String ChatMessageOut :=
  match retrievalResult with
  | .error e => .error e
  | .ok retrieved =>
    let out := llm (buildPrompt (buildContext retrieved) message)
    .ok { role := "assistant", content := out.text,
          citations := retrieved.map toCitation, usage := out.usage }

/-- C7: when retrieval succeeds with zero pages, the orchestrator still
invokes the Language Model Service (on the ungrounded prompt) and returns
a successful response with an empty citation list, never an error. -/
theorem chat_zero_pages_success (llm : String → LMResult) (message : String) :
    chatOrchestrate llm (.ok []) message =
      .ok { role := "assistant",
            content := (llm (buildPrompt "" message)).text,
            citations := [],
            usage := (llm (buildPrompt "" message)).usage } :=
  rfl

end Archive
